import Mathlib

/-!
Verification of the real-time order-event notification and presence-room
subsystem of the 10kvendors server (`src/server.js`): the socket session
gateway (`joinAdmin` / `joinUser` handlers), the event router
(`categoryUpdate` / `productUpdate` / `orderStatusUpdate` handlers) and the
push notifier (`POST /api/push/subscribe`, `POST /api/push/send`).

The JavaScript is embedded shallowly:
* async handlers become pure functions over explicit state, with the
  outcomes of external collaborators (JWT verification + `User.findById`,
  `Order.findById(...).populate('user')`, `webPush.sendNotification`)
  supplied as oracle arguments;
* room names are the strings `"adminRoom"` and `"user_" ++ id`; since the
  two families never collide (different first characters) and
  `"user_" ++ a = "user_" ++ b ↔ a = b`, they are modelled by the
  isomorphic inductive type `Room`;
* JavaScript object identity of an endpoint descriptor (the `!==`
  comparison in the send handler's removal step) is modelled by a `Nat`
  tag carried by each registration: two registry entries hold the same
  descriptor object exactly when their tags are equal.
-/

namespace TenKVendors

/-! ## Push notifier (`pushSubscriptions`, `/api/push/subscribe`, `/api/push/send`) -/

/-- Outcome of one `webPush.sendNotification` call, as seen by the
`.catch` in the send handler: the promise either resolves (`ok`) or
rejects; a rejection is either a permanent-invalid-endpoint report or a
transient transport error. -/
inductive DeliveryResult
  | ok
  | transientFailure
  | permanentFailure
  deriving DecidableEq, Repr

/-- One element of the global `pushSubscriptions` array:
`{ userId, subscription }`.  `subscription` is the identity tag of the
opaque endpoint-descriptor object. -/
structure PushRegistration where
  userId : String
  subscription : Nat
  deriving DecidableEq, Repr

/-- `POST /api/push/subscribe`: `pushSubscriptions.push({ userId, subscription })`. -/
def registerSubscription (regs : List PushRegistration) (uid : String) (sub : Nat) :
    List PushRegistration :=
  regs ++ [⟨uid, sub⟩]

/-- The target-selection step of `POST /api/push/send`:
`userId ? pushSubscriptions.filter(sub => sub.userId === userId) : pushSubscriptions`.
`none` models an absent (or falsy) `userId` field in the request body. -/
def selectTargets (regs : List PushRegistration) (uid? : Option String) :
    List PushRegistration :=
  match uid? with
  | some u => regs.filter (fun r => r.userId == u)
  | none => regs

/-- The fan-out loop of `POST /api/push/send`: for each target,
`webPush.sendNotification(subscription, payload).catch(error => {
  pushSubscriptions = pushSubscriptions.filter(sub => sub.subscription !== subscription); })`.
Every rejection is caught per item, so every target is attempted and a
failed delivery filters the then-current registry by descriptor identity.
The per-item removals touch distinct registry snapshots in sequence; since
each removal is a pointwise filter, the sequential fold computes the same
final registry as the concurrent `Promise.all`. -/
def processDeliveries (deliver : Nat → DeliveryResult) :
    List PushRegistration → List PushRegistration → List PushRegistration
  | [], regs => regs
  | t :: ts, regs =>
    match deliver t.subscription with
    | DeliveryResult.ok => processDeliveries deliver ts regs
    | _ =>
      processDeliveries deliver ts
        (regs.filter (fun r => r.subscription != t.subscription))

/-- HTTP-level outcome of `POST /api/push/send`. -/
inductive SendResult
  | notFound
  | sent
  deriving DecidableEq, Repr

/-- Complete observable effect of one `POST /api/push/send` request:
the HTTP result, the final `pushSubscriptions` registry, and the list of
registrations to which a delivery was attempted. -/
structure SendOutcome where
  result : SendResult
  registry : List PushRegistration
  attempted : List PushRegistration
  deriving DecidableEq, Repr

/-- `POST /api/push/send` body: select targets; 404 when the selection is
empty; otherwise attempt delivery to every target (per-item catch) and
answer 200 once all attempts have settled. -/
def pushSend (deliver : Nat → DeliveryResult) (regs : List PushRegistration)
    (uid? : Option String) : SendOutcome :=
  let targets := selectTargets regs uid?
  if targets.isEmpty then
    ⟨SendResult.notFound, regs, []⟩
  else
    ⟨SendResult.sent, processDeliveries deliver targets regs, targets⟩

/-! ## Rooms, sessions and the socket gateway (`io.on('connection', ...)`) -/

/-- Logical room keys.  `Room.adminRoom` is the string `"adminRoom"`;
`Room.userRoom id` is the string `"user_" ++ id`.  The encoding is
injective and the two families are disjoint, so the inductive type is
isomorphic to the set of room strings the server ever uses. -/
inductive Room
  | adminRoom
  | userRoom (id : String)
  deriving DecidableEq, Repr

/-- Principal resolved from a bearer token:
`User.findById(decoded.id)` yields `{ _id, name, isAdmin }`. -/
structure Principal where
  id : String
  name : String
  isAdmin : Bool
  deriving DecidableEq, Repr

/-- Combined outcome of
`jsonwebtoken.verify(token.replace('Bearer ', ''), JWT_SECRET)` followed by
`User.findById(decoded.id)`, as observed by the join handlers:
`failure` is any thrown error (malformed token, expired signature, lookup
error), `unknown` is a decode that resolves to no user (`user` null), and
`principal p` is a found user. -/
inductive VerifyResult
  | failure
  | unknown
  | principal (p : Principal)
  deriving DecidableEq, Repr

/-- User reference as it appears on an order document: `user._id` may be
missing (falsy). -/
structure UserRef where
  _id : Option String
  deriving DecidableEq, Repr

/-- Order document as handled by the `orderStatusUpdate` handler: the
handler reads only `_id` and `user._id`; `none` models a missing or falsy
field. -/
structure OrderDoc where
  _id : Option String
  user : Option UserRef
  deriving DecidableEq, Repr

/-- The argument of an `orderStatusUpdate` socket event:
`notAnObject` covers `!order || typeof order !== 'object'`; any actual
object is an `orderMsg`. -/
inductive SocketMsg
  | notAnObject
  | orderMsg (o : OrderDoc)
  deriving DecidableEq, Repr

/-- The owning-user id the handler extracts:
`populatedOrder.user && populatedOrder.user._id`. -/
def userIdOf (o : OrderDoc) : Option String :=
  o.user.bind (fun u => u._id)

/-- The repopulation step of the `orderStatusUpdate` handler: when
`!order.user || !order.user._id`, fetch
`Order.findById(order._id).populate('user')` from the persistence oracle
`db`; otherwise keep the incoming order.  `none` means the handler
returns early (`Order not found in DB`). -/
def resolveOrder (db : String → Option OrderDoc) (o : OrderDoc) : Option OrderDoc :=
  if (userIdOf o).isSome then some o
  else
    match o._id with
    | some oid => db oid
    | none => none

/-- One emitted broadcast: `io.to(room).emit(event, payload?)`.
`payload = none` is an emit with no payload. -/
structure Emit where
  room : Room
  event : String
  payload : Option OrderDoc
  deriving DecidableEq, Repr

/-- One live socket connection: its id, whether it is still connected,
and the set of rooms it has joined (socket.io room membership). -/
structure Session where
  sid : Nat
  connected : Bool
  rooms : List Room
  deriving DecidableEq, Repr

/-- A freshly connected, never-authenticated socket: no room membership. -/
def freshSession (sid : Nat) : Session :=
  { sid := sid, connected := true, rooms := [] }

/-- `socket.disconnect()`: the transport closes and socket.io removes the
socket from every room it was in. -/
def disconnectSession (s : Session) : Session :=
  { s with connected := false, rooms := [] }

/-- `socket.join(room)`: idempotent addition to the room's member set. -/
def joinRoom (s : Session) (r : Room) : Session :=
  { s with rooms := s.rooms.insert r }

/-- The inbound socket events handled by `io.on('connection', ...)`.
For the two join events the oracle outcome of credential verification is
carried in the event. -/
inductive SocketEvent
  | joinAdmin (v : VerifyResult)
  | joinUser (v : VerifyResult)
  | categoryUpdate
  | productUpdate
  | orderStatusUpdate (msg : SocketMsg)
  | disconnectEvt
  deriving DecidableEq, Repr

/-- `socket.on('joinAdmin', ...)`: join `adminRoom` when the token
verifies to an existing admin user (`user && user.isAdmin`); on any other
outcome — thrown verification error, unknown user, or a non-admin
principal — `socket.disconnect()`. -/
def handleJoinAdmin (v : VerifyResult) (s : Session) : Session :=
  match v with
  | VerifyResult.principal p =>
    if p.isAdmin then joinRoom s Room.adminRoom else disconnectSession s
  | _ => disconnectSession s

/-- `socket.on('joinUser', ...)`: join `user_<id>` when the token verifies
to an existing user; otherwise `socket.disconnect()`. -/
def handleJoinUser (v : VerifyResult) (s : Session) : Session :=
  match v with
  | VerifyResult.principal p => joinRoom s (Room.userRoom p.id)
  | _ => disconnectSession s

/-- `socket.on('orderStatusUpdate', ...)`: validate the incoming order,
repopulate it from the DB when the user field is missing, then emit to
`adminRoom` and — when an owning-user id is present — to `user_<id>`.
Invalid or unresolvable orders produce no emit at all. -/
def handleOrderStatusUpdate (db : String → Option OrderDoc) (msg : SocketMsg) :
    List Emit :=
  match msg with
  | SocketMsg.notAnObject => []
  | SocketMsg.orderMsg o =>
    match o._id with
    | none => []
    | some _ =>
      match resolveOrder db o with
      | none => []
      | some po =>
        match userIdOf po with
        | some uid =>
          [⟨Room.adminRoom, "orderStatusUpdate", some po⟩,
           ⟨Room.userRoom uid, "orderStatusUpdate", some po⟩]
        | none => [⟨Room.adminRoom, "orderStatusUpdate", some po⟩]

/-- The state change a socket event makes to the handling socket's own
session.  The rebroadcast and order handlers never touch room
membership. -/
def applyEvent (e : SocketEvent) (s : Session) : Session :=
  match e with
  | SocketEvent.joinAdmin v => handleJoinAdmin v s
  | SocketEvent.joinUser v => handleJoinUser v s
  | SocketEvent.disconnectEvt => disconnectSession s
  | _ => s

/-- The broadcasts a socket event produces.  The `categoryUpdate` and
`productUpdate` handlers are `io.to('adminRoom').emit(name)` with no
payload and no inspection of the sending socket. -/
def emitsOf (db : String → Option OrderDoc) (e : SocketEvent) (s : Session) :
    List Emit :=
  match e with
  | SocketEvent.categoryUpdate => [⟨Room.adminRoom, "categoryUpdate", none⟩]
  | SocketEvent.productUpdate => [⟨Room.adminRoom, "productUpdate", none⟩]
  | SocketEvent.orderStatusUpdate msg => handleOrderStatusUpdate db msg
  | _ => []

/-- Full effect of one socket event on the handling session: the updated
session together with the emitted broadcasts. -/
def handleEvent (db : String → Option OrderDoc) (e : SocketEvent) (s : Session) :
    Session × List Emit :=
  (applyEvent e s, emitsOf db e s)

/-- A disconnected socket receives no further events. -/
def stepSession (e : SocketEvent) (s : Session) : Session :=
  if s.connected then applyEvent e s else s

/-- A session's state after a sequence of inbound events. -/
def runSession (evts : List SocketEvent) (s : Session) : Session :=
  evts.foldl (fun s e => stepSession e s) s

/-! ## Broadcast delivery (`io.to(room).emit(...)`) -/

/-- The sessions of a directory that are members of a room (and still
connected): exactly these receive a broadcast addressed to the room. -/
def roomMembers (d : List Session) (r : Room) : List Session :=
  d.filter (fun s => s.connected && s.rooms.contains r)

/-- Delivery of one emit to a directory of sessions: each connected member
of the addressed room receives `(socket id, event name, payload)`. -/
def deliverEmit (d : List Session) (e : Emit) : List (Nat × String × Option OrderDoc) :=
  (roomMembers d e.room).map (fun s => (s.sid, e.event, e.payload))

/-- Delivery of a list of emits, in program order. -/
def deliverEmits (d : List Session) (es : List Emit) :
    List (Nat × String × Option OrderDoc) :=
  (es.map (deliverEmit d)).flatten

/-- The events on which the join handlers take their failure path
(`socket.disconnect()`): a thrown verification error, an unknown user, or
— for `joinAdmin` only — a principal without admin rights. -/
def authFailure : SocketEvent → Bool
  | SocketEvent.joinAdmin (VerifyResult.principal p) => !p.isAdmin
  | SocketEvent.joinAdmin _ => true
  | SocketEvent.joinUser (VerifyResult.principal _) => false
  | SocketEvent.joinUser _ => true
  | _ => false

/-- The `orderStatusUpdate` arguments rejected by the guard
`!order || typeof order !== 'object' || !order._id`. -/
def invalidOrderMsg : SocketMsg → Bool
  | SocketMsg.notAnObject => true
  | SocketMsg.orderMsg o => o._id.isNone

/-! ## Lemmas about the push notifier -/

/-- A registry entry survives the fan-out over `ts` exactly when every
target whose delivery rejects carries a different descriptor. -/
def survives (deliver : Nat → DeliveryResult) (ts : List PushRegistration)
    (r : PushRegistration) : Bool :=
  ts.all (fun t =>
    deliver t.subscription == DeliveryResult.ok || r.subscription != t.subscription)

lemma processDeliveries_eq_filter (deliver : Nat → DeliveryResult) :
    ∀ (ts regs : List PushRegistration),
      processDeliveries deliver ts regs = regs.filter (survives deliver ts) := by
  intro ts
  induction ts with
  | nil =>
    intro regs
    have hs : survives deliver [] = fun _ => true := rfl
    simp only [processDeliveries, hs, List.filter_true]
  | cons t ts ih =>
    intro regs
    cases h : deliver t.subscription with
    | ok =>
      rw [show processDeliveries deliver (t :: ts) regs
            = processDeliveries deliver ts regs by simp [processDeliveries, h]]
      rw [ih]
      apply List.filter_congr
      intro r _
      simp [survives, h]
    | transientFailure =>
      rw [show processDeliveries deliver (t :: ts) regs
            = processDeliveries deliver ts
                (regs.filter (fun r => r.subscription != t.subscription)) by
          simp [processDeliveries, h]]
      rw [ih, List.filter_filter]
      apply List.filter_congr
      intro r _
      have hbeq : (DeliveryResult.transientFailure == DeliveryResult.ok) = false := by
        decide
      simp [survives, h, hbeq, Bool.and_comm]
    | permanentFailure =>
      rw [show processDeliveries deliver (t :: ts) regs
            = processDeliveries deliver ts
                (regs.filter (fun r => r.subscription != t.subscription)) by
          simp [processDeliveries, h]]
      rw [ih, List.filter_filter]
      apply List.filter_congr
      intro r _
      have hbeq : (DeliveryResult.permanentFailure == DeliveryResult.ok) = false := by
        decide
      simp [survives, h, hbeq, Bool.and_comm]

lemma mem_selectTargets (regs : List PushRegistration) (uid? : Option String)
    (t : PushRegistration) (h : t ∈ selectTargets regs uid?) : t ∈ regs := by
  cases uid? with
  | none => exact h
  | some u => exact (List.mem_filter.mp h).1

/-! ## Lemmas about the session gateway -/

/-- Any room found in a session after one event step was either already
joined, or was just joined by the event itself: `adminRoom` only via a
`joinAdmin` that verified to an admin principal, `user_<id>` only via a
`joinUser` that verified to a principal with that id. -/
lemma mem_rooms_stepSession (e : SocketEvent) (s : Session) (r : Room)
    (h : r ∈ (stepSession e s).rooms) :
    r ∈ s.rooms
    ∨ (r = Room.adminRoom ∧
        ∃ p, e = SocketEvent.joinAdmin (VerifyResult.principal p) ∧ p.isAdmin = true)
    ∨ (∃ p, e = SocketEvent.joinUser (VerifyResult.principal p) ∧ r = Room.userRoom p.id) := by
  unfold stepSession at h
  by_cases hc : s.connected = true
  · rw [if_pos hc] at h
    cases e with
    | joinAdmin v =>
      cases v with
      | principal p =>
        by_cases hp : p.isAdmin = true
        · simp only [applyEvent, handleJoinAdmin, hp, if_pos, joinRoom,
            List.mem_insert_iff] at h
          rcases h with h | h
          · exact Or.inr (Or.inl ⟨h, p, rfl, hp⟩)
          · exact Or.inl h
        · simp [applyEvent, handleJoinAdmin, hp, disconnectSession] at h
      | failure =>
        simp only [applyEvent, handleJoinAdmin, disconnectSession,
          List.not_mem_nil] at h
      | unknown =>
        simp only [applyEvent, handleJoinAdmin, disconnectSession,
          List.not_mem_nil] at h
    | joinUser v =>
      cases v with
      | principal p =>
        simp only [applyEvent, handleJoinUser, joinRoom, List.mem_insert_iff] at h
        rcases h with h | h
        · exact Or.inr (Or.inr ⟨p, rfl, h⟩)
        · exact Or.inl h
      | failure =>
        simp only [applyEvent, handleJoinUser, disconnectSession,
          List.not_mem_nil] at h
      | unknown =>
        simp only [applyEvent, handleJoinUser, disconnectSession,
          List.not_mem_nil] at h
    | categoryUpdate => exact Or.inl h
    | productUpdate => exact Or.inl h
    | orderStatusUpdate msg => exact Or.inl h
    | disconnectEvt =>
      simp only [applyEvent, disconnectSession, List.not_mem_nil] at h
  · rw [if_neg hc] at h
    exact Or.inl h

/-- Any room found in a session after a sequence of events was either
already joined at the start or was joined by one of the events, with the
same justification as in `mem_rooms_stepSession`. -/
lemma mem_rooms_runSession :
    ∀ (evts : List SocketEvent) (s : Session) (r : Room),
      r ∈ (runSession evts s).rooms →
      r ∈ s.rooms
      ∨ (r = Room.adminRoom ∧
          ∃ p, SocketEvent.joinAdmin (VerifyResult.principal p) ∈ evts ∧ p.isAdmin = true)
      ∨ (∃ p, SocketEvent.joinUser (VerifyResult.principal p) ∈ evts ∧
          r = Room.userRoom p.id) := by
  intro evts
  induction evts with
  | nil => intro s r h; exact Or.inl h
  | cons e ts ih =>
    intro s r h
    have h' : r ∈ (runSession ts (stepSession e s)).rooms := h
    rcases ih (stepSession e s) r h' with h1 | h1 | h1
    · rcases mem_rooms_stepSession e s r h1 with h2 | h2 | h2
      · exact Or.inl h2
      · exact Or.inr (Or.inl ⟨h2.1, h2.2.choose,
          h2.2.choose_spec.1 ▸ List.mem_cons_self _ _, h2.2.choose_spec.2⟩)
      · exact Or.inr (Or.inr ⟨h2.choose, h2.choose_spec.1 ▸ List.mem_cons_self _ _,
          h2.choose_spec.2⟩)
    · exact Or.inr (Or.inl ⟨h1.1, h1.2.choose,
        List.mem_cons_of_mem _ h1.2.choose_spec.1, h1.2.choose_spec.2⟩)
    · exact Or.inr (Or.inr ⟨h1.choose, List.mem_cons_of_mem _ h1.choose_spec.1,
        h1.choose_spec.2⟩)

/-! ## Claim theorems: push notifier -/

/-- C1 (counterexample): the claim says a delivery that fails with a
transient error leaves the registration in the registry.  In the code the
`.catch` of the send fan-out removes the subscription on any rejection:
with a single registration whose delivery fails transiently, the
registration is gone from the registry after the send. -/
theorem transient_failure_still_removes_cex :
    (⟨"u1", 1⟩ : PushRegistration) ∉
      (pushSend (fun _ => DeliveryResult.transientFailure)
        [⟨"u1", 1⟩] none).registry := by decide

/-- C1 (amended): for every call to push send and every selected
registration, the registration is removed from the registry if and only
if the push transport rejects its delivery with any error — permanent or
transient; only a delivery that succeeds leaves that registration in the
registry.  (Stated contrapositively: the registration remains exactly
when its delivery result is `ok`.) -/
theorem send_retains_iff_delivery_ok (deliver : Nat → DeliveryResult)
    (regs : List PushRegistration) (uid? : Option String) (t : PushRegistration)
    (ht : t ∈ selectTargets regs uid?) :
    t ∈ (pushSend deliver regs uid?).registry ↔
      deliver t.subscription = DeliveryResult.ok := by
  have hne : selectTargets regs uid? ≠ [] := List.ne_nil_of_mem ht
  have hmemregs : t ∈ regs := mem_selectTargets regs uid? t ht
  cases hsel : selectTargets regs uid? with
  | nil => exact absurd hsel hne
  | cons a as =>
    rw [hsel] at ht
    have hreg : (pushSend deliver regs uid?).registry
        = regs.filter (survives deliver (a :: as)) := by
      simp [pushSend, hsel, processDeliveries_eq_filter]
    rw [hreg, List.mem_filter]
    constructor
    · rintro ⟨-, hsurv⟩
      have hall := List.all_eq_true.mp hsurv t ht
      simpa [bne_self_eq_false, beq_iff_eq] using hall
    · intro hok
      refine ⟨hmemregs, List.all_eq_true.mpr ?_⟩
      intro u hu
      by_cases hsub : u.subscription = t.subscription
      · have : deliver u.subscription = DeliveryResult.ok := by rw [hsub]; exact hok
        simp [this]
      · have : (t.subscription != u.subscription) = true := by
          simp only [bne_iff_ne, ne_eq]
          exact fun hcontra => hsub hcontra.symm
        simp [this]

/-- C1 (witness for the amended theorem): with two registrations, a
delivery oracle that succeeds on descriptor 1 and rejects everything
else, the registration carrying descriptor 1 is still registered after a
broadcast send. -/
theorem send_retains_iff_delivery_ok_witness :
    (⟨"u1", 1⟩ : PushRegistration) ∈
      (pushSend
        (fun n => if n = 1 then DeliveryResult.ok else DeliveryResult.transientFailure)
        [⟨"u1", 1⟩, ⟨"u2", 2⟩] none).registry :=
  (send_retains_iff_delivery_ok
    (fun n => if n = 1 then DeliveryResult.ok else DeliveryResult.transientFailure)
    [⟨"u1", 1⟩, ⟨"u2", 2⟩] none ⟨"u1", 1⟩ (by decide)).mpr (by decide)

/-- C5: a push send whose selected registration set is empty (filtered by
`userId` when provided, otherwise all registrations) returns `NotFound`,
performs zero delivery attempts and leaves the registry unchanged. -/
theorem empty_selection_notFound (deliver : Nat → DeliveryResult)
    (regs : List PushRegistration) (uid? : Option String)
    (h : selectTargets regs uid? = []) :
    pushSend deliver regs uid? = ⟨SendResult.notFound, regs, []⟩ := by
  simp [pushSend, h]

/-- C5 (witness): one registration for user `u1`; a send targeted at user
`u2` selects nothing, answers 404 and attempts nothing. -/
theorem empty_selection_notFound_witness :
    pushSend (fun _ => DeliveryResult.ok) [⟨"u1", 1⟩] (some "u2")
      = ⟨SendResult.notFound, [⟨"u1", 1⟩], []⟩ :=
  empty_selection_notFound (fun _ => DeliveryResult.ok) [⟨"u1", 1⟩] (some "u2")
    (by decide)

/-- C6: a push send with a non-empty selected set attempts delivery to
every selected registration and answers success, for every delivery
oracle — in particular no pattern of individual failures prevents any
other attempt or changes the overall success answer. -/
theorem nonempty_selection_attempts_all (deliver : Nat → DeliveryResult)
    (regs : List PushRegistration) (uid? : Option String)
    (h : selectTargets regs uid? ≠ []) :
    (pushSend deliver regs uid?).result = SendResult.sent
    ∧ (pushSend deliver regs uid?).attempted = selectTargets regs uid? := by
  cases hsel : selectTargets regs uid? with
  | nil => exact absurd hsel h
  | cons a as => constructor <;> simp [pushSend, hsel]

/-- C6 (witness): two registrations and an oracle that rejects every
delivery: the send still answers success and both deliveries were
attempted. -/
theorem nonempty_selection_attempts_all_witness :
    (pushSend (fun _ => DeliveryResult.permanentFailure)
        [⟨"u1", 1⟩, ⟨"u2", 2⟩] none).result = SendResult.sent
    ∧ (pushSend (fun _ => DeliveryResult.permanentFailure)
        [⟨"u1", 1⟩, ⟨"u2", 2⟩] none).attempted = [⟨"u1", 1⟩, ⟨"u2", 2⟩] :=
  nonempty_selection_attempts_all (fun _ => DeliveryResult.permanentFailure)
    [⟨"u1", 1⟩, ⟨"u2", 2⟩] none (by decide)

/-- C10: when a failed delivery triggers removal, the registry is
filtered by identity of the endpoint descriptor: after the fan-out over
that single target, an entry remains exactly when it was there before and
its descriptor differs from the failed target's — so every entry holding
that exact descriptor is removed regardless of its `userId`, and every
entry with a distinct descriptor is retained. -/
theorem removal_filters_by_descriptor_identity (deliver : Nat → DeliveryResult)
    (regs : List PushRegistration) (t : PushRegistration)
    (hfail : deliver t.subscription ≠ DeliveryResult.ok) (r : PushRegistration) :
    r ∈ processDeliveries deliver [t] regs ↔
      r ∈ regs ∧ r.subscription ≠ t.subscription := by
  cases hd : deliver t.subscription with
  | ok => exact absurd hd hfail
  | transientFailure =>
    rw [show processDeliveries deliver [t] regs
        = regs.filter (fun r => r.subscription != t.subscription) by
        simp [processDeliveries, hd]]
    rw [List.mem_filter]
    simp [bne_iff_ne]
  | permanentFailure =>
    rw [show processDeliveries deliver [t] regs
        = regs.filter (fun r => r.subscription != t.subscription) by
        simp [processDeliveries, hd]]
    rw [List.mem_filter]
    simp [bne_iff_ne]

/-- C10 (witness): registry with two entries of different users sharing
descriptor 5 and one entry with descriptor 7; a permanently failing
delivery to descriptor 5 retains the descriptor-7 entry. -/
theorem removal_filters_by_descriptor_identity_witness :
    (⟨"u1", 7⟩ : PushRegistration) ∈
      processDeliveries
        (fun n => if n = 5 then DeliveryResult.permanentFailure else DeliveryResult.ok)
        [⟨"u9", 5⟩] [⟨"u1", 5⟩, ⟨"u2", 5⟩, ⟨"u1", 7⟩] :=
  (removal_filters_by_descriptor_identity
    (fun n => if n = 5 then DeliveryResult.permanentFailure else DeliveryResult.ok)
    [⟨"u1", 5⟩, ⟨"u2", 5⟩, ⟨"u1", 7⟩] ⟨"u9", 5⟩ (by decide)
    ⟨"u1", 7⟩).mpr ⟨by decide, by decide⟩

/-! ## Claim theorems: session gateway -/

/-- C2 (counterexample): the claim says a session is a member of at most
one `user_<id>` room at any time.  A session that sends `joinUser` twice
with tokens verifying to two different users joins both rooms: nothing in
the handler leaves the previously joined room. -/
theorem two_user_rooms_cex :
    Room.userRoom "u1" ∈ (runSession
        [SocketEvent.joinUser (VerifyResult.principal ⟨"u1", "Ann", false⟩),
         SocketEvent.joinUser (VerifyResult.principal ⟨"u2", "Ben", false⟩)]
        (freshSession 0)).rooms
    ∧ Room.userRoom "u2" ∈ (runSession
        [SocketEvent.joinUser (VerifyResult.principal ⟨"u1", "Ann", false⟩),
         SocketEvent.joinUser (VerifyResult.principal ⟨"u2", "Ben", false⟩)]
        (freshSession 0)).rooms
    ∧ Room.userRoom "u1" ≠ Room.userRoom "u2" := by decide

/-- C2 (amended): over every sequence of events handled for an initially
fresh session, the session is a member of `user_<id>` only for ids it
successfully authenticated as via `joinUser` (possibly several across
successive joins, since a later join never leaves an earlier room), and
it is a member of `adminRoom` only if some successfully verified
principal it presented has `isAdmin = true`. -/
theorem fresh_session_rooms_justified (evts : List SocketEvent) (sid : Nat) :
    (Room.adminRoom ∈ (runSession evts (freshSession sid)).rooms →
      ∃ p, SocketEvent.joinAdmin (VerifyResult.principal p) ∈ evts ∧ p.isAdmin = true)
    ∧ ∀ uid, Room.userRoom uid ∈ (runSession evts (freshSession sid)).rooms →
        ∃ p, SocketEvent.joinUser (VerifyResult.principal p) ∈ evts ∧ p.id = uid := by
  constructor
  · intro h
    rcases mem_rooms_runSession evts (freshSession sid) Room.adminRoom h with h1 | h1 | h1
    · simp [freshSession] at h1
    · exact h1.2
    · exact Room.noConfusion h1.choose_spec.2
  · intro uid h
    rcases mem_rooms_runSession evts (freshSession sid) (Room.userRoom uid) h
      with h1 | h1 | h1
    · simp [freshSession] at h1
    · exact Room.noConfusion h1.1
    · exact ⟨h1.choose, h1.choose_spec.1, (Room.userRoom.inj h1.choose_spec.2).symm⟩

/-- C2 (witness for the amended theorem): a fresh session that performs
one successful admin join is in `adminRoom`, and the theorem recovers the
verified admin principal behind that membership. -/
theorem fresh_session_rooms_justified_witness :
    ∃ p, SocketEvent.joinAdmin (VerifyResult.principal p) ∈
        [SocketEvent.joinAdmin (VerifyResult.principal ⟨"a1", "Ada", true⟩)]
      ∧ p.isAdmin = true :=
  (fresh_session_rooms_justified
    [SocketEvent.joinAdmin (VerifyResult.principal ⟨"a1", "Ada", true⟩)] 0).1
    (by decide)

/-- C4: whenever credential verification fails during a `joinAdmin` or
`joinUser` — thrown verification error, unknown principal, or a principal
without admin rights on the admin path — the handler disconnects the
session and the session ends with zero room memberships, regardless of
the rooms it held before: no partial join happens. -/
theorem failed_auth_disconnected_no_rooms (e : SocketEvent) (s : Session)
    (h : authFailure e = true) :
    (applyEvent e s).connected = false ∧ (applyEvent e s).rooms = [] := by
  cases e with
  | joinAdmin v =>
    cases v with
    | principal p =>
      have hp : p.isAdmin = false := by
        simpa [authFailure] using h
      simp [applyEvent, handleJoinAdmin, hp, disconnectSession]
    | failure => simp [applyEvent, handleJoinAdmin, disconnectSession]
    | unknown => simp [applyEvent, handleJoinAdmin, disconnectSession]
  | joinUser v =>
    cases v with
    | principal p => simp [authFailure] at h
    | failure => simp [applyEvent, handleJoinUser, disconnectSession]
    | unknown => simp [applyEvent, handleJoinUser, disconnectSession]
  | categoryUpdate => simp [authFailure] at h
  | productUpdate => simp [authFailure] at h
  | orderStatusUpdate msg => simp [authFailure] at h
  | disconnectEvt => simp [authFailure] at h

/-- C4 (witness): a fresh session whose `joinAdmin` token verification
throws ends disconnected with no rooms. -/
theorem failed_auth_disconnected_no_rooms_witness :
    (applyEvent (SocketEvent.joinAdmin VerifyResult.failure)
        (freshSession 0)).connected = false
    ∧ (applyEvent (SocketEvent.joinAdmin VerifyResult.failure)
        (freshSession 0)).rooms = [] :=
  failed_auth_disconnected_no_rooms (SocketEvent.joinAdmin VerifyResult.failure)
    (freshSession 0) (by decide)

/-! ## Claim theorems: event router -/

/-- C3: an `orderStatusUpdate` event whose order passes validation and is
resolvable (the incoming order already carries a populated user, or the
persistence lookup by its id returns the order) always emits the full
resolved order payload to `adminRoom` — also when the resolved order has
no owning user; a `user_<id>` room is emitted to exactly when the
resolved order yields that owning-user id, and then it receives the same
payload. -/
theorem orderStatus_admin_always_user_iff_resolved
    (db : String → Option OrderDoc) (o po : OrderDoc) (oid : String)
    (hid : o._id = some oid) (hres : resolveOrder db o = some po) :
    (⟨Room.adminRoom, "orderStatusUpdate", some po⟩ : Emit) ∈
        handleOrderStatusUpdate db (SocketMsg.orderMsg o)
    ∧ (∀ uid ev pl, (⟨Room.userRoom uid, ev, pl⟩ : Emit) ∈
          handleOrderStatusUpdate db (SocketMsg.orderMsg o) →
        userIdOf po = some uid ∧ ev = "orderStatusUpdate" ∧ pl = some po)
    ∧ (∀ uid, userIdOf po = some uid →
        (⟨Room.userRoom uid, "orderStatusUpdate", some po⟩ : Emit) ∈
          handleOrderStatusUpdate db (SocketMsg.orderMsg o)) := by
  cases hu : userIdOf po with
  | some uid =>
    have hlist : handleOrderStatusUpdate db (SocketMsg.orderMsg o)
        = [⟨Room.adminRoom, "orderStatusUpdate", some po⟩,
           ⟨Room.userRoom uid, "orderStatusUpdate", some po⟩] := by
      simp [handleOrderStatusUpdate, hid, hres, hu]
    refine ⟨by simp [hlist], ?_, ?_⟩
    · intro uid' ev pl hmem
      rw [hlist] at hmem
      simp only [List.mem_cons, List.not_mem_nil, or_false, Emit.mk.injEq,
        Room.userRoom.injEq] at hmem
      rcases hmem with ⟨hr, -, -⟩ | ⟨hr, hev, hpl⟩
      · exact Room.noConfusion hr
      · subst hr
        exact ⟨rfl, hev, hpl⟩
    · intro uid' huid'
      have heq : uid = uid' := Option.some.inj huid'
      subst heq
      simp [hlist]
  | none =>
    have hlist : handleOrderStatusUpdate db (SocketMsg.orderMsg o)
        = [⟨Room.adminRoom, "orderStatusUpdate", some po⟩] := by
      simp [handleOrderStatusUpdate, hid, hres, hu]
    refine ⟨by simp [hlist], ?_, ?_⟩
    · intro uid' ev pl hmem
      rw [hlist] at hmem
      simp only [List.mem_cons, List.not_mem_nil, or_false, Emit.mk.injEq] at hmem
      exact Room.noConfusion hmem.1
    · intro uid' huid'
      exact Option.noConfusion huid'

/-- C3 (witness): an order message carrying only a valid id, whose
persistence lookup returns an order with no owning user: `adminRoom`
still receives the full payload. -/
theorem orderStatus_admin_always_user_iff_resolved_witness :
    (⟨Room.adminRoom, "orderStatusUpdate", some ⟨some "o1", none⟩⟩ : Emit) ∈
      handleOrderStatusUpdate
        (fun oid => if oid = "o1" then some ⟨some "o1", none⟩ else none)
        (SocketMsg.orderMsg ⟨some "o1", none⟩) :=
  (orderStatus_admin_always_user_iff_resolved
    (fun oid => if oid = "o1" then some ⟨some "o1", none⟩ else none)
    ⟨some "o1", none⟩ ⟨some "o1", none⟩ "o1" (by decide) (by decide)).1

/-- C7: an `orderStatusUpdate` event whose argument is not an order
object, or is an object without the required `_id`, is rejected
immediately: the handler changes no session state and emits no broadcast
to any room. -/
theorem invalid_order_event_no_effect (db : String → Option OrderDoc)
    (s : Session) (msg : SocketMsg) (h : invalidOrderMsg msg = true) :
    handleEvent db (SocketEvent.orderStatusUpdate msg) s = (s, []) := by
  cases msg with
  | notAnObject =>
    simp [handleEvent, applyEvent, emitsOf, handleOrderStatusUpdate]
  | orderMsg o =>
    cases hid : o._id with
    | none =>
      simp [handleEvent, applyEvent, emitsOf, handleOrderStatusUpdate, hid]
    | some oid => simp [invalidOrderMsg, hid] at h

/-- C7 (witness): a non-object `orderStatusUpdate` argument produces no
state change and no emit. -/
theorem invalid_order_event_no_effect_witness :
    handleEvent (fun _ => none)
        (SocketEvent.orderStatusUpdate SocketMsg.notAnObject) (freshSession 0)
      = (freshSession 0, []) :=
  invalid_order_event_no_effect (fun _ => none) (freshSession 0)
    SocketMsg.notAnObject (by decide)

/-- C8: a `productUpdate` (likewise `categoryUpdate`) signal from any
client session makes the server broadcast so that exactly the connected
members of `adminRoom` receive the matching event name with no payload —
and no other session receives anything. -/
theorem catalog_update_reaches_exactly_adminRoom (db : String → Option OrderDoc)
    (d : List Session) (sender : Session) :
    deliverEmits d (handleEvent db SocketEvent.productUpdate sender).2
      = (roomMembers d Room.adminRoom).map
          (fun s => (s.sid, "productUpdate", (none : Option OrderDoc)))
    ∧ deliverEmits d (handleEvent db SocketEvent.categoryUpdate sender).2
      = (roomMembers d Room.adminRoom).map
          (fun s => (s.sid, "categoryUpdate", (none : Option OrderDoc))) := by
  constructor <;> simp [deliverEmits, deliverEmit, handleEvent, emitsOf]

/-- C9: the `categoryUpdate` / `productUpdate` rebroadcast handlers make
no credential or membership check on the sender: whatever the sender's
session state — never authenticated, failed authentication, any room
membership — the handler leaves the sender's session untouched and emits
the `adminRoom` broadcast. -/
theorem rebroadcast_ignores_sender (db : String → Option OrderDoc)
    (sender : Session) :
    (handleEvent db SocketEvent.productUpdate sender).2
        = [⟨Room.adminRoom, "productUpdate", none⟩]
    ∧ (handleEvent db SocketEvent.categoryUpdate sender).2
        = [⟨Room.adminRoom, "categoryUpdate", none⟩]
    ∧ (handleEvent db SocketEvent.productUpdate sender).1 = sender
    ∧ (handleEvent db SocketEvent.categoryUpdate sender).1 = sender :=
  ⟨rfl, rfl, rfl, rfl⟩

end TenKVendors
